import Mathlib

/-!
Verification of the `clags.h` command-line argument parsing engine.

The repository provides the library header (type definitions, the
`clags__types` and `clags__errors` tables, argument/config constructor
macros and documented function declarations), example programs and a test
suite.  The function bodies guarded by `CLAGS_IMPLEMENTATION` are not part
of the available sources, so the operational behaviour of `clags_parse`,
the value verifiers and the index lookups is modelled from the
specification (sections 4.1-4.3, 6 and 7 of spec.md) and from the
documented declarations; each such definition carries a doc comment
starting with `Modelled from the spec:`.  Data-model definitions (enums,
tables, constructor defaults) are translated directly from the header
text present in the sources.

Configs are stored in an environment (`ClagsEnv`); indices into the
environment play the role of `clags_config_t *` pointers, so that
`clags_parse` can faithfully return "a pointer to the failing config".
-/

namespace ClagsSpec

/-! ## Enumerations (from the header text in the sources) -/

/-- Log levels, from `clags_log_level_t` in the header. -/
inductive ClagsLogLevel where
  | Clags_Info
  | Clags_Warning
  | Clags_Error
  | Clags_ConfigWarning
  | Clags_ConfigError
  | Clags_NoLogs
deriving DecidableEq, Repr

/-- Value kinds, in the order of the `clags__types` X-macro table in the
header: `Clags_String` is the first member, hence enum value 0. -/
inductive ClagsValueType where
  | Clags_String
  | Clags_Custom
  | Clags_Bool
  | Clags_Int8
  | Clags_UInt8
  | Clags_Int32
  | Clags_UInt32
  | Clags_Int64
  | Clags_UInt64
  | Clags_Double
  | Clags_Choice
  | Clags_Path
  | Clags_File
  | Clags_Dir
  | Clags_Size
  | Clags_TimeS
  | Clags_TimeNS
  | Clags_Subcmd
deriving DecidableEq, Repr

open ClagsValueType

/-- The C enum value of a `clags_value_type_t` member (position in the
`clags__types` table). -/
def clags_value_type_code : ClagsValueType → Nat
  | Clags_String => 0
  | Clags_Custom => 1
  | Clags_Bool => 2
  | Clags_Int8 => 3
  | Clags_UInt8 => 4
  | Clags_Int32 => 5
  | Clags_UInt32 => 6
  | Clags_Int64 => 7
  | Clags_UInt64 => 8
  | Clags_Double => 9
  | Clags_Choice => 10
  | Clags_Path => 11
  | Clags_File => 12
  | Clags_Dir => 13
  | Clags_Size => 14
  | Clags_TimeS => 15
  | Clags_TimeNS => 16
  | Clags_Subcmd => 17

/-- Error kinds, from `clags_error_t` in the header. -/
inductive ClagsError where
  | Clags_Error_Ok
  | Clags_Error_InvalidConfig
  | Clags_Error_InvalidValue
  | Clags_Error_InvalidOption
  | Clags_Error_TooManyArguments
  | Clags_Error_TooFewArguments
deriving DecidableEq, Repr

open ClagsError

/-- The `clags__errors` X-macro table from the header: each error kind
paired with its fixed description string. -/
def clags__errors : List (ClagsError × String) :=
  [(Clags_Error_Ok, "no error"),
   (Clags_Error_InvalidConfig, "configuration is invalid"),
   (Clags_Error_InvalidValue,
     "argument value does not match expected type or criteria"),
   (Clags_Error_InvalidOption, "unrecognized option or flag syntax"),
   (Clags_Error_TooManyArguments, "too many positional arguments provided"),
   (Clags_Error_TooFewArguments, "required positional arguments missing")]

/-- Modelled from the spec: `clags_error_description` (whose body is in the
missing implementation section) is a static lookup over the
`clags__errors` table. -/
def clags_error_description (e : ClagsError) : String :=
  (((clags__errors.find? (fun p => p.1 = e)).map Prod.snd)).getD ""

/-- Flag kinds, from `clags_flag_type_t` in the header;
`Clags_BoolFlag` is the default (enum value 0). -/
inductive ClagsFlagType where
  | Clags_BoolFlag
  | Clags_ConfigFlag
  | Clags_CountFlag
  | Clags_CallbackFlag
deriving DecidableEq, Repr

open ClagsFlagType

/-- Argument species, from `clags_arg_type_t` in the header. -/
inductive ClagsArgType where
  | Clags_Positional
  | Clags_Option
  | Clags_Flag
deriving DecidableEq, Repr

open ClagsArgType

/-- Result of the filesystem-existence predicate that Path/File/Dir
verification delegates to (an external collaborator per the spec). -/
inductive ClagsFileStat where
  | missing
  | regular
  | directory
deriving DecidableEq, Repr

/-! ## Values and typed lists -/

/-- A parsed floating-point magnitude: the spec's standard
finite-floating-point grammar produces a finite (rational) value, and the
NaN / Infinity literals produce the two non-finite shapes. -/
inductive ClagsFloat where
  | finite (q : Rat)
  | nan
  | inf (neg : Bool)
deriving DecidableEq, Repr

/-- A scalar value as produced by a verifier (list elements are always
scalar).  Reference-valued slots (choice, subcommand, config) hold a
model address. -/
inductive ClagsScalar where
  | sNull
  | sStr (s : String)
  | sBool (b : Bool)
  | sInt (n : Int)
  | sNat (n : Nat)
  | sFloat (x : ClagsFloat)
  | sChoiceRef (addr : Nat)
  | sSubcmdRef (addr : Nat)
  | sConfigRef (idx : Nat)
deriving DecidableEq, Repr

/-- Contents of a bound storage slot (the C `void *variable` target):
either a scalar, or a `clags_list_t` value modelled inline - items, the
configured element byte size (`item_size`) and the capacity. -/
inductive ClagsValue where
  | scalar (v : ClagsScalar)
  | vList (items : List ClagsScalar) (item_size : Nat) (capacity : Nat)
deriving DecidableEq, Repr

open ClagsValue

/-- Shorthand constructors mirroring the slot contents by C type. -/
def vNull : ClagsValue := scalar ClagsScalar.sNull

def vStr (s : String) : ClagsValue := scalar (ClagsScalar.sStr s)

def vBool (b : Bool) : ClagsValue := scalar (ClagsScalar.sBool b)

def vInt (n : Int) : ClagsValue := scalar (ClagsScalar.sInt n)

def vNat (n : Nat) : ClagsValue := scalar (ClagsScalar.sNat n)

def vFloat (x : ClagsFloat) : ClagsValue := scalar (ClagsScalar.sFloat x)

def vChoiceRef (addr : Nat) : ClagsValue := scalar (ClagsScalar.sChoiceRef addr)

def vSubcmdRef (addr : Nat) : ClagsValue := scalar (ClagsScalar.sSubcmdRef addr)

def vConfigRef (idx : Nat) : ClagsValue := scalar (ClagsScalar.sConfigRef idx)

/-- The element byte size implied by a value kind (C `sizeof` of the
variable type documented in the `clags__types` table, on the LP64 model
the examples target); `Clags_Custom` has no implied size - custom lists
supply their own via `clags_custom_list`. -/
def clags_type_size : ClagsValueType → Option Nat
  | Clags_String => some 8
  | Clags_Custom => none
  | Clags_Bool => some 1
  | Clags_Int8 => some 1
  | Clags_UInt8 => some 1
  | Clags_Int32 => some 4
  | Clags_UInt32 => some 4
  | Clags_Int64 => some 8
  | Clags_UInt64 => some 8
  | Clags_Double => some 8
  | Clags_Choice => some 8
  | Clags_Path => some 8
  | Clags_File => some 8
  | Clags_Dir => some 8
  | Clags_Size => some 8
  | Clags_TimeS => some 8
  | Clags_TimeNS => some 8
  | Clags_Subcmd => some 8

/-- The kinds whose bound value is the raw token string (`char *`);
for these, string duplication applies when enabled. -/
def clags_is_string_kind : ClagsValueType → Bool
  | Clags_String => true
  | Clags_Path => true
  | Clags_File => true
  | Clags_Dir => true
  | _ => false

/-- Capacity after ensuring room for one more element: a list grows
geometrically, starting from `CLAGS_LIST_INIT_CAPACITY` (8 in the header)
and doubling. -/
def clags_grow (count capacity : Nat) : Nat :=
  if count < capacity then capacity
  else if capacity = 0 then 8 else 2 * capacity

/-! ## Character and numeral helpers for the verifiers -/

/-- C `isspace` characters. -/
def clags_isspace (c : Char) : Bool :=
  c = ' ' || c = '\t' || c = '\n' || c = '\x0b' || c = '\x0c' || c = '\r'

/-- ASCII lower-casing, for the case-insensitive comparisons. -/
def clags_ascii_lower (c : Char) : Char :=
  if 'A' ≤ c && c ≤ 'Z' then Char.ofNat (c.toNat + 32) else c

/-- Lower-case a character list. -/
def clags_lower (cs : List Char) : List Char := cs.map clags_ascii_lower

/-- Numeric value of a base-10 digit string (most significant first). -/
def clags_digitsVal (cs : List Char) : Nat :=
  cs.foldl (fun a c => 10 * a + (c.toNat - 48)) 0

/-- Parse a non-empty all-digit character list, base 10. -/
def clags_parse_digits (cs : List Char) : Option Nat :=
  if cs ≠ [] ∧ cs.all Char.isDigit then some (clags_digitsVal cs) else none

/-- Modelled from the spec: the unsigned-integer verifier core (the bodies
of `clags__verify_uint8/uint32/uint64` are in the missing implementation
section).  Base-10; leading whitespace is skipped as by `strtoull`, but a
`-` sign - with or without leading whitespace before it - is rejected
(no implicit signedness coercion); the whole token must be consumed; the
value must fit `bits` bits exactly; the empty token is rejected. -/
def clags_parse_uint (bits : Nat) (s : String) : Option Nat :=
  match s.data.dropWhile clags_isspace with
  | [] => none
  | c :: rest =>
    if c = '-' then none
    else
      match clags_parse_digits (if c = '+' then rest else c :: rest) with
      | some v => if v < 2 ^ bits then some v else none
      | none => none

/-- Modelled from the spec: the signed-integer verifier core (the bodies
of `clags__verify_int8/int32/int64` are in the missing implementation
section).  Base-10 with an optional leading `+`/`-`; leading whitespace is
skipped as by `strtol`; the whole token must be consumed; the value must
fit a `bits`-bit two's-complement range exactly; the empty token is
rejected. -/
def clags_parse_int (bits : Nat) (s : String) : Option Int :=
  match s.data.dropWhile clags_isspace with
  | [] => none
  | c :: rest =>
    let body := if c = '-' || c = '+' then rest else c :: rest
    match clags_parse_digits body with
    | some v =>
      let x : Int := if c = '-' then -(v : Int) else (v : Int)
      if -(2 ^ (bits - 1) : Int) ≤ x ∧ x < 2 ^ (bits - 1) then some x
      else none
    | none => none

/-- Leading digit run of a character list, with the remainder. -/
def clags_take_digits (cs : List Char) : List Char × List Char :=
  (cs.takeWhile Char.isDigit, cs.dropWhile Char.isDigit)

/-- Modelled from the spec: the decimal mantissa of the standard
floating-point grammar - digits, optionally with a fractional part; at
least one digit must be present overall.  Returns the rational value and
the unconsumed remainder. -/
def clags_parse_mantissa (cs : List Char) : Option (Rat × List Char) :=
  let (ip, r1) := clags_take_digits cs
  match r1 with
  | '.' :: r2 =>
    let (fp, r3) := clags_take_digits r2
    if ip.isEmpty && fp.isEmpty then none
    else
      some ((clags_digitsVal ip : Rat)
              + (clags_digitsVal fp : Rat) / ((10 : Rat) ^ fp.length), r3)
  | _ => if ip.isEmpty then none else some ((clags_digitsVal ip : Rat), r1)

/-- Modelled from the spec: the optional exponent part (`e`/`E`, optional
sign, digits) of the standard floating-point grammar, applied to a
mantissa; the whole remainder must be consumed. -/
def clags_apply_exponent (m : Rat) (cs : List Char) : Option Rat :=
  match cs with
  | [] => some m
  | e :: r1 =>
    if e = 'e' || e = 'E' then
      let (neg, body) :=
        match r1 with
        | '-' :: r2 => (true, r2)
        | '+' :: r2 => (false, r2)
        | _ => (false, r1)
      match clags_parse_digits body with
      | some k =>
        some (if neg then m / ((10 : Rat) ^ k) else m * ((10 : Rat) ^ k))
      | none => none
    else none

/-- Modelled from the spec: the `Clags_Double` verifier core - any token
of a standard finite-floating-point grammar, plus the NaN/Infinity
literals (case-insensitive, as accepted by `strtod`); leading whitespace
skipped; the whole token must be consumed; empty rejected. -/
def clags_parse_double (s : String) : Option ClagsFloat :=
  match s.data.dropWhile clags_isspace with
  | [] => none
  | c :: rest =>
    let (neg, body) :=
      if c = '-' then (true, rest)
      else if c = '+' then (false, rest)
      else (false, c :: rest)
    let low := clags_lower body
    if low = ['n', 'a', 'n'] then some ClagsFloat.nan
    else if low = ['i', 'n', 'f'] || low = "infinity".data then
      some (ClagsFloat.inf neg)
    else
      match clags_parse_mantissa body with
      | some (m, r) =>
        match clags_apply_exponent m r with
        | some v => some (ClagsFloat.finite (if neg then -v else v))
        | none => none
      | none => none

/-- Byte multiplier for a size suffix (lower-cased), per the spec: bytes
and KiB/MiB/GiB-style binary multiples alongside the decimal ones the
examples show (`1.4MB`, `10B`). No suffix means bytes. -/
def clags_size_unit : List Char → Option Nat
  | [] => some 1
  | ['b'] => some 1
  | ['k', 'b'] => some 1000
  | ['k', 'i', 'b'] => some 1024
  | ['m', 'b'] => some (1000 * 1000)
  | ['m', 'i', 'b'] => some (1024 * 1024)
  | ['g', 'b'] => some (1000 * 1000 * 1000)
  | ['g', 'i', 'b'] => some (1024 * 1024 * 1024)
  | ['t', 'b'] => some (1000 * 1000 * 1000 * 1000)
  | ['t', 'i', 'b'] => some (1024 * 1024 * 1024 * 1024)
  | _ => none

/-- Modelled from the spec: the `Clags_Size` verifier core (body in the
missing implementation section) - an unsigned decimal magnitude
optionally followed by a byte-unit suffix, producing an unsigned 64-bit
byte count; a `-` sign and the empty token are rejected. -/
def clags_parse_size (s : String) : Option Nat :=
  match s.data.dropWhile clags_isspace with
  | [] => none
  | c :: rest =>
    if c = '-' then none
    else
      match clags_parse_mantissa (c :: rest) with
      | some (m, r) =>
        match clags_size_unit (clags_lower r) with
        | some mult => some ((m * (mult : Rat)).floor.toNat)
        | none => none
      | none => none

/-- Nanosecond multiplier for a duration suffix (target resolution
nanoseconds); no suffix means the target resolution. -/
def clags_time_unit_ns : List Char → Option Nat
  | [] => some 1
  | ['n', 's'] => some 1
  | ['u', 's'] => some 1000
  | ['m', 's'] => some (1000 * 1000)
  | ['s'] => some (1000 * 1000 * 1000)
  | ['m'] => some (60 * 1000 * 1000 * 1000)
  | ['h'] => some (3600 * 1000 * 1000 * 1000)
  | ['d'] => some (86400 * 1000 * 1000 * 1000)
  | _ => none

/-- Second multiplier for a duration suffix (target resolution seconds). -/
def clags_time_unit_s : List Char → Option Nat
  | [] => some 1
  | ['s'] => some 1
  | ['m'] => some 60
  | ['h'] => some 3600
  | ['d'] => some 86400
  | _ => none

/-- Modelled from the spec: the `Clags_TimeS`/`Clags_TimeNS` verifier core
(bodies in the missing implementation section) - a decimal magnitude
optionally followed by a duration-unit suffix, converted to the target
integer resolution; non-finite magnitudes (the `nan`/`inf` literals fail
the decimal grammar here) and negative magnitudes are rejected, as is the
empty token. -/
def clags_parse_time (unit : List Char → Option Nat) (s : String) : Option Nat :=
  match s.data.dropWhile clags_isspace with
  | [] => none
  | c :: rest =>
    if c = '-' then none
    else
      match clags_parse_mantissa (c :: rest) with
      | some (m, r) =>
        match unit (clags_lower r) with
        | some mult => some ((m * (mult : Rat)).floor.toNat)
        | none => none
      | none => none

/-- Modelled from the spec: the `Clags_Bool` verifier core -
case-insensitive membership in the truthy set {"true","yes","1","on"}
or the falsy set {"false","no","0","off"}; anything else rejected. -/
def clags_parse_bool (s : String) : Option Bool :=
  let low := clags_lower s.data
  if low = "true".data || low = "yes".data || low = "1".data
      || low = "on".data then some true
  else if low = "false".data || low = "no".data || low = "0".data
      || low = "off".data then some false
  else none

/-! ## Choices, subcommands, arguments and configs -/

/-- `clags_choice_t`: one (literal, description) pair. -/
structure ClagsChoice where
  value : String
  description : String
deriving DecidableEq, Repr

/-- `clags_choices_t`: the choice-set wrapper.  `base` is the model
address of `items[0]`, so `base + i` is the C pointer `&items[i]`. -/
structure ClagsChoices where
  base : Nat
  items : List ClagsChoice
  print_no_details : Bool := false
  case_insensitive : Bool := false
deriving DecidableEq, Repr

/-- `clags_subcmd_t`: name, description, and the config (as an
environment index, playing the role of the `clags_config_t *`). -/
structure ClagsSubcmd where
  name : String
  description : String
  config : Nat
deriving DecidableEq, Repr

/-- `clags_subcmds_t`: the subcommand-set wrapper; `base + i` models the
C pointer `&items[i]`. -/
structure ClagsSubcmds where
  base : Nat
  items : List ClagsSubcmd
deriving DecidableEq, Repr

/-- The union payload of an argument: exactly one of a custom verifier, a
choice set, or a subcommand set, selected by the value kind (the C
`union { verify; choices; subcmds; }`).  The custom verifier is modelled
as a function from the raw token to an optional scalar result. -/
inductive ClagsPayload where
  | pNone
  | pVerify (f : String → Option ClagsScalar)
  | pChoices (c : ClagsChoices)
  | pSubcmds (s : ClagsSubcmds)

instance : Inhabited ClagsPayload := ⟨ClagsPayload.pNone⟩

/-- `clags_options_t`.  The `ignore_prefix` C field is named `ignorePfx`
here; the log handler is an external collaborator and carries no
parse-relevant state beyond the minimum level. -/
structure ClagsOptions where
  ignorePfx : Option String := none
  list_terminator : Option String := none
  print_no_notes : Bool := false
  allow_option_parsing_toggle : Bool := false
  duplicate_strings : Bool := false
  min_log_level : ClagsLogLevel := ClagsLogLevel.Clags_Info
  description : Option String := none

/-- `clags_arg_t` with the three variants flattened as in the C tagged
union; `type` selects the species.  Field defaults mirror C
zero-initialization of the designated-initializer macros: in particular
`value_type` defaults to `Clags_String` (enum value 0) and `ftype` to
`Clags_BoolFlag`. The C `variable` pointer target is the `var` slot. -/
structure ClagsArg where
  type : ClagsArgType
  short_flag : Option Char := none
  long_flag : Option String := none
  var : ClagsValue := vNull
  arg_name : String := ""
  description : String := ""
  value_type : ClagsValueType := Clags_String
  is_list : Bool := false
  optional : Bool := false
  payload : ClagsPayload := ClagsPayload.pNone
  exit : Bool := false
  ftype : ClagsFlagType := Clags_BoolFlag

instance : Inhabited ClagsArg := ⟨{ type := Clags_Positional }⟩

/-- `clags_config_t`.  `parent` is the parent back-reference as an
environment index (weak, informational); `allocs` is the ledger of
duplicated strings; `error` the last error recorded while parsing. -/
structure ClagsConfig where
  args : List ClagsArg := []
  options : ClagsOptions := {}
  name : Option String := none
  parent : Option Nat := none
  invalid : Bool := false
  allocs : List String := []
  error : ClagsError := Clags_Error_Ok

/-- The all-default config (C zero initialization, `{0}`). -/
def clags_nil_config : ClagsConfig := {}

instance : Inhabited ClagsConfig := ⟨clags_nil_config⟩

/-- The environment of configs; indices model `clags_config_t *`. -/
abbrev ClagsEnv := List ClagsConfig

/-- Dereference a config pointer. -/
def clags_env_get (env : ClagsEnv) (i : Nat) : ClagsConfig :=
  env.getD i clags_nil_config

/-- Store through a config pointer (padding with default configs keeps
the operation total; in C every pointer dereferences to a live config). -/
def clags_env_set (env : ClagsEnv) (i : Nat) (c : ClagsConfig) : ClagsEnv :=
  (env ++ List.replicate (i + 1 - env.length) clags_nil_config).set i c

/-! ## Argument constructor macros (from the header text) -/

/-- The `clags_positional` macro: sets variable, name and description;
all other fields come from the designated-initializer varargs `opts`
(C zero-defaults when absent). -/
def clags_positional (v : ClagsValue) (nm desc : String) (opts : ClagsArg) :
    ClagsArg :=
  { opts with type := Clags_Positional, var := v, arg_name := nm,
              description := desc }

/-- The `clags_option` macro. -/
def clags_option (sflag : Option Char) (lflag : Option String)
    (v : ClagsValue) (nm desc : String) (opts : ClagsArg) : ClagsArg :=
  { opts with type := Clags_Option, short_flag := sflag, long_flag := lflag,
              var := v, arg_name := nm, description := desc }

/-- The `clags_flag` macro. -/
def clags_flag (sflag : Option Char) (lflag : Option String)
    (v : ClagsValue) (desc : String) (opts : ClagsArg) : ClagsArg :=
  { opts with type := Clags_Flag, short_flag := sflag, long_flag := lflag,
              var := v, description := desc }

/-- The `clags_flag_help` shorthand macro: `-h`/`--help`, exit = true. -/
def clags_flag_help (v : ClagsValue) : ClagsArg :=
  clags_flag (some 'h') (some "help") v "print this help dialog"
    { type := Clags_Flag, exit := true }

/-- The `clags_config` macro: argument array plus options. -/
def clags_config (arguments : List ClagsArg) (opts : ClagsOptions) :
    ClagsConfig :=
  { args := arguments, options := opts }

/-! ## Verifier dispatch -/

/-- Find the first choice literal matching the token, per the configured
case sensitivity. -/
def clags_choice_find (c : ClagsChoices) (tok : String) : Option Nat :=
  c.items.findIdx? (fun ch =>
    if c.case_insensitive then
      clags_lower ch.value.data == clags_lower tok.data
    else ch.value == tok)

/-- Modelled from the spec: the verifier dispatch of section 4.1 - one
conversion per value kind, selected by the `clags__types` table.  `fs` is
the filesystem-existence collaborator used by Path/File/Dir.  Subcommand
is not a token verifier (resolved by the matcher) and Custom delegates to
the payload function. -/
def clags_verify (fs : String → ClagsFileStat) (vt : ClagsValueType)
    (payload : ClagsPayload) (arg : String) : Option ClagsScalar :=
  match vt with
  | Clags_String => some (ClagsScalar.sStr arg)
  | Clags_Custom =>
    match payload with
    | ClagsPayload.pVerify f => f arg
    | _ => none
  | Clags_Bool => (clags_parse_bool arg).map ClagsScalar.sBool
  | Clags_Int8 => (clags_parse_int 8 arg).map ClagsScalar.sInt
  | Clags_UInt8 => (clags_parse_uint 8 arg).map ClagsScalar.sNat
  | Clags_Int32 => (clags_parse_int 32 arg).map ClagsScalar.sInt
  | Clags_UInt32 => (clags_parse_uint 32 arg).map ClagsScalar.sNat
  | Clags_Int64 => (clags_parse_int 64 arg).map ClagsScalar.sInt
  | Clags_UInt64 => (clags_parse_uint 64 arg).map ClagsScalar.sNat
  | Clags_Double => (clags_parse_double arg).map ClagsScalar.sFloat
  | Clags_Choice =>
    match payload with
    | ClagsPayload.pChoices c =>
      (clags_choice_find c arg).map (fun i => ClagsScalar.sChoiceRef (c.base + i))
    | _ => none
  | Clags_Path =>
    if fs arg ≠ ClagsFileStat.missing then some (ClagsScalar.sStr arg) else none
  | Clags_File =>
    if fs arg = ClagsFileStat.regular then some (ClagsScalar.sStr arg) else none
  | Clags_Dir =>
    if fs arg = ClagsFileStat.directory then some (ClagsScalar.sStr arg) else none
  | Clags_Size => (clags_parse_size arg).map ClagsScalar.sNat
  | Clags_TimeS => (clags_parse_time clags_time_unit_s arg).map ClagsScalar.sNat
  | Clags_TimeNS => (clags_parse_time clags_time_unit_ns arg).map ClagsScalar.sNat
  | Clags_Subcmd => none

/-! ## Binding values into argument storage -/

/-- Modelled from the spec: bind one verified token into an argument's
storage.  For a list-valued argument the configured element byte size
must equal the size implied by the value kind - checked before the item
is verified or written (a Custom list has no implied size to check); the
list then grows geometrically.  For a scalar argument the slot is
overwritten. `none` means the token was rejected (InvalidValue). -/
def clags_bind_arg (fs : String → ClagsFileStat) (a : ClagsArg)
    (tok : String) : Option ClagsArg :=
  if a.is_list then
    match a.var with
    | ClagsValue.vList items isz cap =>
      if (clags_type_size a.value_type).getD isz = isz then
        (clags_verify fs a.value_type a.payload tok).map (fun v =>
          { a with var := ClagsValue.vList (items ++ [v]) isz
                            (clags_grow items.length cap) })
      else none
    | _ => none
  else
    (clags_verify fs a.value_type a.payload tok).map (fun v =>
      { a with var := ClagsValue.scalar v })

/-- Record a duplicated string in the config's allocation ledger when
string duplication is enabled and the bound value is a raw string. -/
def clags_note_alloc (cfg : ClagsConfig) (vt : ClagsValueType)
    (tok : String) : List String :=
  if cfg.options.duplicate_strings && clags_is_string_kind vt then
    cfg.allocs ++ [tok]
  else cfg.allocs

/-- Bind a token into the `k`-th entry of the argument array (used for
options), updating the allocation ledger. -/
def clags_cfg_bind (fs : String → ClagsFileStat) (cfg : ClagsConfig)
    (k : Nat) (tok : String) : Option ClagsConfig :=
  let a := cfg.args.getD k default
  match clags_bind_arg fs a tok with
  | some a' =>
    some { cfg with args := cfg.args.set k a',
                    allocs := clags_note_alloc cfg a.value_type tok }
  | none => none

/-- Arguments of positional species, in declaration order. -/
def clags_positionals (args : List ClagsArg) : List ClagsArg :=
  args.filter (fun a => a.type == Clags_Positional)

/-- Replace the storage slot of the `n`-th positional. -/
def clags_update_positional : List ClagsArg → Nat → ClagsValue → List ClagsArg
  | [], _, _ => []
  | a :: rest, n, v =>
    if a.type == Clags_Positional then
      match n with
      | 0 => { a with var := v } :: rest
      | Nat.succ m => a :: clags_update_positional rest m v
    else a :: clags_update_positional rest n v

/-- Bind a token into the `n`-th positional's storage, updating the
allocation ledger. -/
def clags_cfg_bind_pos (fs : String → ClagsFileStat) (cfg : ClagsConfig)
    (n : Nat) (tok : String) : Option ClagsConfig :=
  match (clags_positionals cfg.args)[n]? with
  | some p =>
    match clags_bind_arg fs p tok with
    | some p' =>
      some { cfg with args := clags_update_positional cfg.args n p'.var,
                      allocs := clags_note_alloc cfg p.value_type tok }
    | none => none
  | none => none

/-! ## Flag effects -/

/-- Counter value currently in a slot (0 for a fresh slot). -/
def clags_count_val : ClagsValue → Nat
  | ClagsValue.scalar (ClagsScalar.sNat n) => n
  | _ => 0

/-- Modelled from the spec: the effect of one flag occurrence, by flag
kind - Bool sets true, Count increments, ConfigCapture stores a
reference to the active config, Callback invokes the user callback (an
external effect with no parse-state change). -/
def clags_apply_flag (envIdx : Nat) (a : ClagsArg) : ClagsArg :=
  match a.ftype with
  | Clags_BoolFlag => { a with var := vBool true }
  | Clags_ConfigFlag => { a with var := vConfigRef envIdx }
  | Clags_CountFlag => { a with var := vNat (clags_count_val a.var + 1) }
  | Clags_CallbackFlag => a

/-- Argument-matching predicates for the four flag/option lookups. -/
def clags_is_option_long (nm : String) (a : ClagsArg) : Bool :=
  a.type == Clags_Option && a.long_flag == some nm

def clags_is_flag_long (nm : String) (a : ClagsArg) : Bool :=
  a.type == Clags_Flag && a.long_flag == some nm

def clags_is_option_short (c : Char) (a : ClagsArg) : Bool :=
  a.type == Clags_Option && a.short_flag == some c

def clags_is_flag_short (c : Char) (a : ClagsArg) : Bool :=
  a.type == Clags_Flag && a.short_flag == some c

/-- Modelled from the spec: apply a run of combined short flags
(`-abc` means `-a -b -c`); each character must name a flag; an
exit-immediately flag stops the run (second component true). `none`
means an unknown character (InvalidOption). -/
def clags_apply_short_flags (envIdx : Nat) :
    ClagsConfig → List Char → Option (ClagsConfig × Bool)
  | cfg, [] => some (cfg, false)
  | cfg, c :: cs =>
    match cfg.args.findIdx? (clags_is_flag_short c) with
    | some k =>
      let a := cfg.args.getD k default
      let cfg' := { cfg with args := cfg.args.set k (clags_apply_flag envIdx a) }
      if a.exit then some (cfg', true)
      else clags_apply_short_flags envIdx cfg' cs
    | none => none

/-! ## Tokenizer and matcher -/

/-- Classification of one token, per section 4.2: the literal `--`
(toggle / one-shot disable), a long `--name[=value]` form, a short
`-c...` form, or positional input.  When option parsing is not in effect
every token is positional input; `--` still toggles when the persistent
toggle is allowed. -/
inductive ClagsTokClass where
  | toggle
  | long (body : List Char)
  | short (cs : List Char)
  | positional
deriving DecidableEq, Repr

/-- Classify a token (as its character list). -/
def clags_classify (eff toggleAllowed : Bool) (cs : List Char) :
    ClagsTokClass :=
  match cs with
  | '-' :: '-' :: [] =>
    if eff || toggleAllowed then ClagsTokClass.toggle
    else ClagsTokClass.positional
  | '-' :: '-' :: c :: cs' =>
    if eff then ClagsTokClass.long (c :: cs') else ClagsTokClass.positional
  | '-' :: c :: cs' =>
    if eff then ClagsTokClass.short (c :: cs') else ClagsTokClass.positional
  | _ => ClagsTokClass.positional

/-- Split a long-form body at the first `=`, if any. -/
def clags_split_eq : List Char → List Char × Option (List Char)
  | [] => ([], none)
  | c :: rest =>
    if c = '=' then ([], some rest)
    else
      let (a, b) := clags_split_eq rest
      (c :: a, b)

/-- Does the ignore-prefix option make the parser skip this token? -/
def clags_ignored (pfx : Option String) (tok : String) : Bool :=
  match pfx with
  | some p => p ≠ "" && p.data.isPrefixOf tok.data
  | none => false

/-- Is this token the configured list terminator? -/
def clags_is_terminator (t : Option String) (tok : String) : Bool :=
  match t with
  | some s => s == tok
  | none => false

/-- Number of non-optional positionals declared strictly after the
`n`-th one (the look-ahead reservation of section 4.2). -/
def clags_required_after (args : List ClagsArg) (n : Nat) : Nat :=
  ((clags_positionals args).drop (n + 1)).countP (fun p => !p.optional)

/-- Scanner state across tokens: positional cursor, the options-enabled
flag, the one-shot disable mark, and whether the current (list)
positional has already received at least one item. -/
structure ClagsMatchState where
  posIdx : Nat := 0
  enabled : Bool := true
  oneShot : Bool := false
  curHasItems : Bool := false
deriving DecidableEq, Repr

/-- Fresh scanner state for a (sub)config pass. -/
def clags_init_state : ClagsMatchState := {}

/-- Number of required positionals not yet satisfied (completion check):
positionals before the cursor are satisfied, and the current one is
satisfied when it is a list that already has items. -/
def clags_missing_required (args : List ClagsArg) (st : ClagsMatchState) :
    Nat :=
  ((clags_positionals args).drop
      (st.posIdx + (if st.curHasItems then 1 else 0))).countP
    (fun p => !p.optional)

/-- Record an error kind on the config being scanned and return the
failing-config reference (section 7: the failure is recorded on the
active schema and scanning stops). -/
def clags_fail (env : ClagsEnv) (idx : Nat) (e : ClagsError) :
    ClagsEnv × Option Nat :=
  (clags_env_set env idx { clags_env_get env idx with error := e }, some idx)

/-- Find the subcommand entry whose name exactly matches the token. -/
def clags_subcmd_find (s : ClagsSubcmds) (tok : String) : Option Nat :=
  s.items.findIdx? (fun sc => sc.name == tok)

instance : Inhabited ClagsSubcmd :=
  ⟨{ name := "", description := "", config := 0 }⟩

/-- Modelled from the spec: the Tokenizer & Matcher of sections 4.2/4.3
and the error policy of section 7.  Walks the tokens left to right
against the config at `idx`; returns the updated environment and either
`none` (no failure) or the reference (environment index) of the config
that failed, whose error field has been set.  `fuel` only bounds the
recursion; `clags_parse` supplies enough for the scan to complete. -/
def clags_match (fs : String → ClagsFileStat) :
    Nat → ClagsEnv → Nat → ClagsMatchState → List String →
    ClagsEnv × Option Nat
  | 0, env, idx, _, _ => clags_fail env idx Clags_Error_InvalidConfig
  | Nat.succ _, env, idx, st, [] =>
    if clags_missing_required (clags_env_get env idx).args st = 0 then
      (env, none)
    else clags_fail env idx Clags_Error_TooFewArguments
  | Nat.succ fuel, env, idx, st, tok :: rest =>
    let cfg := clags_env_get env idx
    let eff := st.enabled && !st.oneShot
    let st0 := { st with oneShot := false }
    if clags_ignored cfg.options.ignorePfx tok then
      clags_match fs fuel env idx st0 rest
    else
      match clags_classify eff cfg.options.allow_option_parsing_toggle
          tok.data with
      | ClagsTokClass.toggle =>
        if cfg.options.allow_option_parsing_toggle then
          clags_match fs fuel env idx { st0 with enabled := !st.enabled } rest
        else
          clags_match fs fuel env idx { st0 with oneShot := true } rest
      | ClagsTokClass.long body =>
        let (nmcs, inline) := clags_split_eq body
        let nm := String.mk nmcs
        match cfg.args.findIdx? (clags_is_option_long nm) with
        | some k =>
          match inline with
          | some v =>
            match clags_cfg_bind fs cfg k (String.mk v) with
            | some cfg' =>
              clags_match fs fuel (clags_env_set env idx cfg') idx st0 rest
            | none => clags_fail env idx Clags_Error_InvalidValue
          | none =>
            match rest with
            | v :: rest' =>
              match clags_cfg_bind fs cfg k v with
              | some cfg' =>
                clags_match fs fuel (clags_env_set env idx cfg') idx st0 rest'
              | none => clags_fail env idx Clags_Error_InvalidValue
            | [] => clags_fail env idx Clags_Error_InvalidValue
        | none =>
          match inline with
          | some _ => clags_fail env idx Clags_Error_InvalidOption
          | none =>
            match cfg.args.findIdx? (clags_is_flag_long nm) with
            | some k =>
              let a := cfg.args.getD k default
              let cfg' :=
                { cfg with args := cfg.args.set k (clags_apply_flag idx a) }
              let env' := clags_env_set env idx cfg'
              if a.exit then (env', none)
              else clags_match fs fuel env' idx st0 rest
            | none => clags_fail env idx Clags_Error_InvalidOption
      | ClagsTokClass.short (c :: cs) =>
        match cfg.args.findIdx? (clags_is_option_short c) with
        | some k =>
          match cs with
          | _ :: _ =>
            match clags_cfg_bind fs cfg k (String.mk cs) with
            | some cfg' =>
              clags_match fs fuel (clags_env_set env idx cfg') idx st0 rest
            | none => clags_fail env idx Clags_Error_InvalidValue
          | [] =>
            match rest with
            | v :: rest' =>
              match clags_cfg_bind fs cfg k v with
              | some cfg' =>
                clags_match fs fuel (clags_env_set env idx cfg') idx st0 rest'
              | none => clags_fail env idx Clags_Error_InvalidValue
            | [] => clags_fail env idx Clags_Error_InvalidValue
        | none =>
          match clags_apply_short_flags idx cfg (c :: cs) with
          | some (cfg', exited) =>
            let env' := clags_env_set env idx cfg'
            if exited then (env', none)
            else clags_match fs fuel env' idx st0 rest
          | none => clags_fail env idx Clags_Error_InvalidOption
      | ClagsTokClass.short [] => clags_fail env idx Clags_Error_InvalidOption
      | ClagsTokClass.positional =>
        match (clags_positionals cfg.args)[st.posIdx]? with
        | none => clags_fail env idx Clags_Error_TooManyArguments
        | some p =>
          if p.value_type == Clags_Subcmd then
            match p.payload with
            | ClagsPayload.pSubcmds s =>
              match clags_subcmd_find s tok with
              | some i =>
                let childIdx := (s.items.getD i default).config
                let cfg' :=
                  { cfg with args := clags_update_positional cfg.args
                                       st.posIdx (vSubcmdRef (s.base + i)) }
                let env1 := clags_env_set env idx cfg'
                let child := clags_env_get env1 childIdx
                let env2 := clags_env_set env1 childIdx
                  { child with name := some tok, parent := some idx }
                clags_match fs fuel env2 childIdx clags_init_state rest
              | none => clags_fail env idx Clags_Error_InvalidValue
            | _ => clags_fail env idx Clags_Error_InvalidConfig
          else if p.is_list then
            if clags_is_terminator cfg.options.list_terminator tok then
              clags_match fs fuel env idx
                { st0 with posIdx := st.posIdx + 1, curHasItems := false } rest
            else if rest.length + 1 = clags_required_after cfg.args st.posIdx
            then
              clags_match fs fuel env idx
                { st0 with posIdx := st.posIdx + 1, curHasItems := false }
                (tok :: rest)
            else
              match clags_cfg_bind_pos fs cfg st.posIdx tok with
              | some cfg' =>
                clags_match fs fuel (clags_env_set env idx cfg') idx
                  { st0 with curHasItems := true } rest
              | none => clags_fail env idx Clags_Error_InvalidValue
          else
            match clags_cfg_bind_pos fs cfg st.posIdx tok with
            | some cfg' =>
              clags_match fs fuel (clags_env_set env idx cfg') idx
                { st0 with posIdx := st.posIdx + 1, curHasItems := false } rest
            | none => clags_fail env idx Clags_Error_InvalidValue

/-- Fuel sufficient for a full scan: every step either consumes a token
or advances a positional cursor, and every config is entered at most
once. -/
def clags_fuel (env : ClagsEnv) (argv : List String) : Nat :=
  argv.length + (env.map (fun c => c.args.length + 2)).sum * (argv.length + 1)
    + 1

/-- Modelled from the spec: `clags_parse` (section 6).  `argv.head` is
the program name, stored as the root config's name; the remaining tokens
are scanned by the matcher.  Returns the updated environment together
with `none` on success or the reference to the failing (sub)config. -/
def clags_parse (fs : String → ClagsFileStat) (env : ClagsEnv)
    (argv : List String) (idx : Nat) : ClagsEnv × Option Nat :=
  match argv with
  | [] => clags_match fs (clags_fuel env []) env idx clags_init_state []
  | pn :: toks =>
    let cfg := clags_env_get env idx
    let env0 := clags_env_set env idx { cfg with name := some pn }
    clags_match fs (clags_fuel env argv) env0 idx clags_init_state toks

/-! ## Reference-index lookups (documented declarations) -/

/-- Modelled from the spec: `clags_subcmd_index` - the index of the
entry whose address (`base + i`) equals the given reference, or -1 when
either argument is null or the reference does not point into the array
(body in the missing implementation section; contract from the header's
doc comment). -/
def clags_subcmd_index (subcmds : Option ClagsSubcmds)
    (subcmd : Option Nat) : Int :=
  match subcmds, subcmd with
  | some set, some p =>
    match (List.range set.items.length).find? (fun i => set.base + i == p) with
    | some i => (i : Int)
    | none => -1
  | _, _ => -1

/-- Modelled from the spec: `clags_choice_index` - same contract as
`clags_subcmd_index` over a choice array. -/
def clags_choice_index (choices : Option ClagsChoices)
    (choice : Option Nat) : Int :=
  match choices, choice with
  | some set, some p =>
    match (List.range set.items.length).find? (fun i => set.base + i == p) with
    | some i => (i : Int)
    | none => -1
  | _, _ => -1

/-! ## Environment lemmas -/

theorem clags_env_lt_pad (env : ClagsEnv) (i : Nat) :
    i < (env ++ List.replicate (i + 1 - env.length) clags_nil_config).length := by
  simp only [List.length_append, List.length_replicate]
  omega

theorem clags_env_get_set_self (env : ClagsEnv) (i : Nat) (c : ClagsConfig) :
    clags_env_get (clags_env_set env i c) i = c := by
  unfold clags_env_get clags_env_set
  rw [List.getD_eq_getElem?_getD,
    List.getElem?_set_eq_of_lt _ (clags_env_lt_pad env i)]
  rfl

theorem clags_env_get_pad (env : ClagsEnv) (i j : Nat) :
    (env ++ List.replicate (i + 1 - env.length) clags_nil_config).getD j
        clags_nil_config = clags_env_get env j := by
  unfold clags_env_get
  rw [List.getD_eq_getElem?_getD, List.getD_eq_getElem?_getD]
  by_cases hj : j < env.length
  · rw [List.getElem?_append_left hj]
  · rw [List.getElem?_append_right (Nat.le_of_not_lt hj)]
    rw [List.getElem?_eq_none (le_of_not_lt hj)]
    by_cases hr : j - env.length < i + 1 - env.length
    · rw [List.getElem?_replicate_of_lt hr]
      rfl
    · rw [List.getElem?_eq_none (by simpa using Nat.le_of_not_lt hr)]

theorem clags_env_get_set_ne (env : ClagsEnv) (i j : Nat) (c : ClagsConfig)
    (h : j ≠ i) : clags_env_get (clags_env_set env i c) j = clags_env_get env j := by
  unfold clags_env_set
  rw [clags_env_get, List.getD_eq_getElem?_getD, List.getElem?_set_ne (by omega)]
  rw [← List.getD_eq_getElem?_getD, clags_env_get_pad]

/-! ## The parse-outcome invariant (section 7 error policy) -/

/-- Two environments agree on every config's error field. -/
def clags_errs_eq (env env' : ClagsEnv) : Prop :=
  ∀ j, (clags_env_get env' j).error = (clags_env_get env j).error

theorem clags_errs_eq_refl (env : ClagsEnv) : clags_errs_eq env env :=
  fun _ => rfl

theorem clags_errs_eq_trans {a b c : ClagsEnv} (h1 : clags_errs_eq a b)
    (h2 : clags_errs_eq b c) : clags_errs_eq a c :=
  fun j => (h2 j).trans (h1 j)

theorem clags_errs_eq_set {env : ClagsEnv} {i : Nat} {c : ClagsConfig}
    (h : c.error = (clags_env_get env i).error) :
    clags_errs_eq env (clags_env_set env i c) := by
  intro j
  by_cases hj : j = i
  · subst hj
    rw [clags_env_get_set_self]
    exact h
  · rw [clags_env_get_set_ne _ _ _ _ hj]

/-- The contract of a match/parse result: a returned failure reference
points at a config whose error field is set (non-Ok), and a `none`
result leaves every config's error field unchanged. -/
def clags_result_ok (env : ClagsEnv) (r : ClagsEnv × Option Nat) : Prop :=
  (∀ j, r.2 = some j → (clags_env_get r.1 j).error ≠ Clags_Error_Ok) ∧
  (r.2 = none → clags_errs_eq env r.1)

theorem clags_fail_result_ok (env : ClagsEnv) (idx : Nat) (e : ClagsError)
    (h : e ≠ Clags_Error_Ok) : clags_result_ok env (clags_fail env idx e) := by
  constructor
  · intro j hj
    have hji : j = idx := by
      simpa [clags_fail] using hj.symm
    subst hji
    show (clags_env_get (clags_fail env j e).1 j).error ≠ Clags_Error_Ok
    unfold clags_fail
    rw [clags_env_get_set_self]
    exact h
  · intro hn
    exact absurd hn (by simp [clags_fail])

theorem clags_result_ok_mono {env env₁ : ClagsEnv} {r : ClagsEnv × Option Nat}
    (h1 : clags_errs_eq env env₁) (h2 : clags_result_ok env₁ r) :
    clags_result_ok env r :=
  ⟨h2.1, fun hn => clags_errs_eq_trans h1 (h2.2 hn)⟩

theorem clags_result_ok_none {env env' : ClagsEnv}
    (h : clags_errs_eq env env') : clags_result_ok env (env', none) :=
  ⟨fun _ hj => Option.noConfusion hj, fun _ => h⟩

theorem clags_cfg_bind_error {fs : String → ClagsFileStat}
    {cfg cfg' : ClagsConfig} {k : Nat} {tok : String}
    (h : clags_cfg_bind fs cfg k tok = some cfg') : cfg'.error = cfg.error := by
  unfold clags_cfg_bind at h
  dsimp only at h
  split at h
  · cases h
    rfl
  · cases h

theorem clags_cfg_bind_pos_error {fs : String → ClagsFileStat}
    {cfg cfg' : ClagsConfig} {n : Nat} {tok : String}
    (h : clags_cfg_bind_pos fs cfg n tok = some cfg') :
    cfg'.error = cfg.error := by
  unfold clags_cfg_bind_pos at h
  split at h
  · split at h
    · cases h
      rfl
    · cases h
  · cases h

theorem clags_apply_short_flags_error {envIdx : Nat} :
    ∀ (cs : List Char) (cfg cfg' : ClagsConfig) (ex : Bool),
    clags_apply_short_flags envIdx cfg cs = some (cfg', ex) →
    cfg'.error = cfg.error := by
  intro cs
  induction cs with
  | nil =>
    intro cfg cfg' ex h
    cases h
    rfl
  | cons c cs ih =>
    intro cfg cfg' ex h
    unfold clags_apply_short_flags at h
    split at h
    · dsimp only at h
      split at h
      · cases h
        rfl
      · exact (ih _ _ _ h).trans rfl
    · cases h

theorem clags_match_result_ok (fs : String → ClagsFileStat) :
    ∀ (fuel : Nat) (env : ClagsEnv) (idx : Nat) (st : ClagsMatchState)
      (tokens : List String),
    clags_result_ok env (clags_match fs fuel env idx st tokens) := by
  intro fuel
  induction fuel with
  | zero =>
    intro env idx st tokens
    exact clags_fail_result_ok _ _ _ (by decide)
  | succ fuel ih =>
    intro env idx st tokens
    match tokens with
    | [] =>
      show clags_result_ok env (clags_match fs (fuel + 1) env idx st [])
      unfold clags_match
      split
      · exact clags_result_ok_none (clags_errs_eq_refl env)
      · exact clags_fail_result_ok _ _ _ (by decide)
    | tok :: rest =>
      show clags_result_ok env (clags_match fs (fuel + 1) env idx st (tok :: rest))
      have hset : ∀ (c' : ClagsConfig) (i j : Nat) (st' : ClagsMatchState)
          (ts : List String),
          c'.error = (clags_env_get env i).error →
          clags_result_ok env
            (clags_match fs fuel (clags_env_set env i c') j st' ts) := by
        intro c' i j st' ts h
        exact clags_result_ok_mono (clags_errs_eq_set h) (ih _ _ _ _)
      have hsetnone : ∀ (c' : ClagsConfig) (i : Nat),
          c'.error = (clags_env_get env i).error →
          clags_result_ok env (clags_env_set env i c', none) := by
        intro c' i h
        exact clags_result_ok_none (clags_errs_eq_set h)
      unfold clags_match
      dsimp only
      split
      · exact ih _ _ _ _
      · split
        · split
          · exact ih _ _ _ _
          · exact ih _ _ _ _
        · -- long form
          split
          · split
            · split
              · rename_i hb
                exact hset _ _ _ _ _ (clags_cfg_bind_error hb)
              · exact clags_fail_result_ok _ _ _ (by decide)
            · split
              · split
                · rename_i hb
                  exact hset _ _ _ _ _ (clags_cfg_bind_error hb)
                · exact clags_fail_result_ok _ _ _ (by decide)
              · exact clags_fail_result_ok _ _ _ (by decide)
          · split
            · exact clags_fail_result_ok _ _ _ (by decide)
            · split
              · split
                · exact hsetnone _ _ rfl
                · exact hset _ _ _ _ _ rfl
              · exact clags_fail_result_ok _ _ _ (by decide)
        · -- short form, leading char known
          split
          · split
            · split
              · rename_i hb
                exact hset _ _ _ _ _ (clags_cfg_bind_error hb)
              · exact clags_fail_result_ok _ _ _ (by decide)
            · split
              · split
                · rename_i hb
                  exact hset _ _ _ _ _ (clags_cfg_bind_error hb)
                · exact clags_fail_result_ok _ _ _ (by decide)
              · exact clags_fail_result_ok _ _ _ (by decide)
          · split
            · rename_i hsf
              have herr := clags_apply_short_flags_error _ _ _ _ hsf
              split
              · exact hsetnone _ _ herr
              · exact hset _ _ _ _ _ herr
            · exact clags_fail_result_ok _ _ _ (by decide)
        · -- short form, empty run
          exact clags_fail_result_ok _ _ _ (by decide)
        · -- positional input
          split
          · exact clags_fail_result_ok _ _ _ (by decide)
          · split
            · split
              · split
                · apply clags_result_ok_mono _ (ih _ _ _ _)
                  refine clags_errs_eq_trans ?_ (clags_errs_eq_set rfl)
                  exact clags_errs_eq_set rfl
                · exact clags_fail_result_ok _ _ _ (by decide)
              · exact clags_fail_result_ok _ _ _ (by decide)
            · split
              · split
                · exact ih _ _ _ _
                · split
                  · exact ih _ _ _ _
                  · split
                    · rename_i hb
                      exact hset _ _ _ _ _ (clags_cfg_bind_pos_error hb)
                    · exact clags_fail_result_ok _ _ _ (by decide)
              · split
                · rename_i hb
                  exact hset _ _ _ _ _ (clags_cfg_bind_pos_error hb)
                · exact clags_fail_result_ok _ _ _ (by decide)

theorem clags_parse_result_ok (fs : String → ClagsFileStat) (env : ClagsEnv)
    (argv : List String) (idx : Nat) :
    clags_result_ok env (clags_parse fs env argv idx) := by
  unfold clags_parse
  match argv with
  | [] => exact clags_match_result_ok _ _ _ _ _ _
  | pn :: toks =>
    dsimp only
    apply clags_result_ok_mono _ (clags_match_result_ok _ _ _ _ _ _)
    exact clags_errs_eq_set rfl

/-! ## Test fixtures (schemas from the repository's test suite) -/

/-- Filesystem collaborator for scenarios without Path/File/Dir specs. -/
def clags_fs_none : String → ClagsFileStat := fun _ => ClagsFileStat.missing

/-- The `--num` Int32 option schema of the `test_int_option`,
`test_invalid_value` and `test_empty_integer_rejected` tests
(`int num = 0`). -/
def clags_num_cfg : ClagsConfig :=
  { args := [{ type := Clags_Option, long_flag := some "num",
               value_type := Clags_Int32, var := vInt 0 }] }

/-- C1: for every argument vector and schema, `clags_parse` returns
nothing (no failing reference) exactly when parsing succeeds - a
returned reference points at a config whose error field is set to a
non-Ok kind, while a `none` result leaves every config's error field
unchanged (so still `Ok` for freshly constructed configs); in
particular, parsing `--num abc` against a schema with one Int32 option
returns the schema itself (the same reference that was passed in) with
error `InvalidValue`, and `--num 123` returns nothing with the error
field still `Ok`. -/
theorem clags_c1_parse_failure_contract :
    (∀ (fs : String → ClagsFileStat) (env : ClagsEnv) (argv : List String)
        (idx : Nat), clags_result_ok env (clags_parse fs env argv idx)) ∧
    ((clags_parse clags_fs_none [clags_num_cfg] ["prog", "--num", "abc"] 0).2
        = some 0 ∧
      (clags_env_get
          (clags_parse clags_fs_none [clags_num_cfg]
            ["prog", "--num", "abc"] 0).1 0).error
        = Clags_Error_InvalidValue) ∧
    ((clags_parse clags_fs_none [clags_num_cfg] ["prog", "--num", "123"] 0).2
        = none ∧
      (clags_env_get
          (clags_parse clags_fs_none [clags_num_cfg]
            ["prog", "--num", "123"] 0).1 0).error = Clags_Error_Ok) := by
  refine ⟨clags_parse_result_ok, ⟨?_, ?_⟩, ?_, ?_⟩ <;> decide

/-- Witness for C1: the general contract applied at the concrete failing
input - the returned reference's error field is non-Ok there. -/
theorem clags_c1_witness :
    (clags_env_get
        (clags_parse clags_fs_none [clags_num_cfg]
          ["prog", "--num", "abc"] 0).1 0).error ≠ Clags_Error_Ok :=
  (clags_c1_parse_failure_contract.1 clags_fs_none [clags_num_cfg]
      ["prog", "--num", "abc"] 0).1 0 (by decide)

/-! ## C8: the error-description table -/

/-- C8 counterexample: the `clags__errors` description table has six
entries - one per error kind - not five as the claim states. -/
theorem clags_c8_counterexample :
    clags__errors.length = 6 ∧ ¬ (clags__errors.length = 5) := by
  decide

/-- C8 (amended): `clags_error_description` is a static (pure, total)
lookup mapping error kinds to fixed description strings, with six
entries covering the kinds Ok, InvalidConfig, InvalidValue,
InvalidOption, TooManyArguments and TooFewArguments. -/
theorem clags_c8_error_description_table :
    clags__errors.length = 6 ∧
    clags__errors.map Prod.fst =
      [Clags_Error_Ok, Clags_Error_InvalidConfig, Clags_Error_InvalidValue,
       Clags_Error_InvalidOption, Clags_Error_TooManyArguments,
       Clags_Error_TooFewArguments] ∧
    (∀ e : ClagsError, (e, clags_error_description e) ∈ clags__errors) := by
  refine ⟨by decide, by decide, ?_⟩
  intro e
  cases e <;> decide

/-! ## C10: reference-index lookups -/

theorem clags_find?_append {α : Type} (l₁ l₂ : List α) (p : α → Bool) :
    (l₁ ++ l₂).find? p =
      match l₁.find? p with
      | some a => some a
      | none => l₂.find? p := by
  induction l₁ with
  | nil => rfl
  | cons a t ih =>
    rw [List.cons_append, List.find?_cons, List.find?_cons]
    by_cases h : p a
    · simp [h]
    · simp only [h]
      simpa using ih

theorem clags_range_find (n base p : Nat) :
    (List.range n).find? (fun i => base + i == p)
      = if base ≤ p ∧ p < base + n then some (p - base) else none := by
  induction n with
  | zero =>
    simp only [List.range_zero, List.find?_nil]
    have h : ¬ (base ≤ p ∧ p < base + 0) := by omega
    rw [if_neg h]
  | succ n ih =>
    rw [List.range_succ, clags_find?_append, ih]
    by_cases h1 : base ≤ p ∧ p < base + n
    · rw [if_pos h1, if_pos (by omega)]
    · rw [if_neg h1]
      simp only [List.find?_singleton]
      by_cases h2 : base + n = p
      · have hb : (base + n == p) = true := by simpa using h2
        have hcond : base ≤ p ∧ p < base + (n + 1) := by omega
        rw [if_pos hcond, hb, if_pos rfl]
        exact congrArg some (by omega)
      · have hb : (base + n == p) = false := by simpa using h2
        have hc : ¬ (base ≤ p ∧ p < base + (n + 1)) := by omega
        rw [if_neg hc]
        simp [hb]

/-- C10: `clags_subcmd_index` and `clags_choice_index` are total at the
public interface - for every input they return the index of the entry
whose address equals the given reference, and return -1 (rather than
failing) whenever either argument is null or the reference does not
point into the given array. -/
theorem clags_c10_index_lookups :
    (∀ (p : Option Nat), clags_subcmd_index none p = -1) ∧
    (∀ (s : ClagsSubcmds), clags_subcmd_index (some s) none = -1) ∧
    (∀ (s : ClagsSubcmds) (p : Nat),
      (s.base ≤ p ∧ p - s.base < s.items.length →
        clags_subcmd_index (some s) (some p) = ((p - s.base : Nat) : Int)) ∧
      (¬ (s.base ≤ p ∧ p - s.base < s.items.length) →
        clags_subcmd_index (some s) (some p) = -1)) ∧
    (∀ (p : Option Nat), clags_choice_index none p = -1) ∧
    (∀ (c : ClagsChoices), clags_choice_index (some c) none = -1) ∧
    (∀ (c : ClagsChoices) (p : Nat),
      (c.base ≤ p ∧ p - c.base < c.items.length →
        clags_choice_index (some c) (some p) = ((p - c.base : Nat) : Int)) ∧
      (¬ (c.base ≤ p ∧ p - c.base < c.items.length) →
        clags_choice_index (some c) (some p) = -1)) := by
  refine ⟨fun p => rfl, fun s => rfl, fun s p => ⟨?_, ?_⟩,
          fun p => rfl, fun c => rfl, fun c p => ⟨?_, ?_⟩⟩
  · intro h
    unfold clags_subcmd_index
    dsimp only
    rw [clags_range_find, if_pos (by omega)]
  · intro h
    unfold clags_subcmd_index
    dsimp only
    rw [clags_range_find, if_neg (by omega)]
  · intro h
    unfold clags_choice_index
    dsimp only
    rw [clags_range_find, if_pos (by omega)]
  · intro h
    unfold clags_choice_index
    dsimp only
    rw [clags_range_find, if_neg (by omega)]

/-- Witness for C10: the lookup applied at a concrete one-entry
subcommand set (reference hits entry 0) and at a concrete choice set
with a reference that does not point into the array. -/
theorem clags_c10_witness :
    clags_subcmd_index
        (some { base := 100,
                items := [{ name := "init", description := "", config := 1 }] })
        (some 100) = 0 ∧
    clags_choice_index
        (some { base := 40, items := [{ value := "LIFO", description := "" }] })
        (some 77) = -1 := by
  constructor
  · exact (clags_c10_index_lookups.2.2.1
      { base := 100,
        items := [{ name := "init", description := "", config := 1 }] }
      100).1 (by decide)
  · exact (clags_c10_index_lookups.2.2.2.2.2
      { base := 40, items := [{ value := "LIFO", description := "" }] }
      77).2 (by decide)

/-! ## C6: empty tokens are rejected by every numeric verifier -/

/-- The numeric value kinds (integer widths, double, size, durations). -/
def clags_is_numeric_kind : ClagsValueType → Bool
  | Clags_Int8 => true
  | Clags_UInt8 => true
  | Clags_Int32 => true
  | Clags_UInt32 => true
  | Clags_Int64 => true
  | Clags_UInt64 => true
  | Clags_Double => true
  | Clags_Size => true
  | Clags_TimeS => true
  | Clags_TimeNS => true
  | _ => false

/-- C6: for every numeric value kind the empty-string token is rejected
by its verifier; in particular parsing `""` as the value of an Int32
option yields `InvalidValue`, returns the failing schema, and leaves the
bound storage unchanged at its pre-call value (0). -/
theorem clags_c6_empty_rejected :
    (∀ (fs : String → ClagsFileStat) (payload : ClagsPayload)
        (k : ClagsValueType), clags_is_numeric_kind k = true →
      clags_verify fs k payload "" = none) ∧
    ((clags_parse clags_fs_none [clags_num_cfg] ["prog", "--num", ""] 0).2
        = some 0 ∧
      (clags_env_get (clags_parse clags_fs_none [clags_num_cfg]
          ["prog", "--num", ""] 0).1 0).error = Clags_Error_InvalidValue ∧
      (clags_env_get (clags_parse clags_fs_none [clags_num_cfg]
          ["prog", "--num", ""] 0).1 0).args.map (fun a => a.var) = [vInt 0]) := by
  constructor
  · intro fs payload k hk
    cases k <;> first
      | rfl
      | exact absurd hk (by decide)
  · refine ⟨by decide, by decide, by decide⟩

/-- Witness for C6: the verifier-level statement applied at the Int32
kind. -/
theorem clags_c6_witness :
    clags_verify clags_fs_none Clags_Int32 ClagsPayload.pNone "" = none :=
  clags_c6_empty_rejected.1 clags_fs_none ClagsPayload.pNone Clags_Int32
    (by decide)

/-! ## C3: list element-size mismatch -/

/-- The mismatched-size list schema of
`test_list_item_size_mismatch_rejected`: a `uint8_t`-sized list
(element size 1) declared with value kind Int32 (element size 4). -/
def clags_ints_cfg : ClagsConfig :=
  { args := [{ type := Clags_Positional, arg_name := "ints",
               value_type := Clags_Int32, var := ClagsValue.vList [] 1 0,
               is_list := true }] }

/-- C3: whenever a list-valued argument's configured element byte size
differs from the size implied by its declared value kind, binding any
item fails (nothing is ever written); at the parse level the first item
is rejected with `InvalidValue` and the list's element count stays 0. -/
theorem clags_c3_list_size_mismatch :
    (∀ (fs : String → ClagsFileStat) (a : ClagsArg) (tok : String)
        (items : List ClagsScalar) (isz cap sz : Nat),
      a.is_list = true → a.var = ClagsValue.vList items isz cap →
      clags_type_size a.value_type = some sz → isz ≠ sz →
      clags_bind_arg fs a tok = none) ∧
    ((clags_parse clags_fs_none [clags_ints_cfg] ["prog", "1"] 0).2 = some 0 ∧
      (clags_env_get (clags_parse clags_fs_none [clags_ints_cfg]
          ["prog", "1"] 0).1 0).error = Clags_Error_InvalidValue ∧
      (clags_env_get (clags_parse clags_fs_none [clags_ints_cfg]
          ["prog", "1"] 0).1 0).args.map (fun a => a.var)
        = [ClagsValue.vList [] 1 0]) := by
  constructor
  · intro fs a tok items isz cap sz hl hv ht hne
    unfold clags_bind_arg
    rw [hl, hv, ht]
    simp only [if_true, Option.getD_some]
    rw [if_neg (fun h => hne h.symm)]
  · refine ⟨by decide, by decide, by decide⟩

/-- Witness for C3: the general statement applied at the fixture's
mismatched positional and the token `"1"`. -/
theorem clags_c3_witness :
    clags_bind_arg clags_fs_none
      { type := Clags_Positional, arg_name := "ints",
        value_type := Clags_Int32, var := ClagsValue.vList [] 1 0,
        is_list := true } "1" = none :=
  clags_c3_list_size_mismatch.1 clags_fs_none _ "1" [] 1 0 4 rfl rfl rfl
    (by decide)

/-! ## C2: unsigned kinds reject tokens containing a minus sign -/

theorem clags_mem_dropWhile {α : Type} {a : α} {l : List α} {p : α → Bool}
    (h : a ∈ l) (hp : p a = false) : a ∈ l.dropWhile p := by
  induction l with
  | nil => cases h
  | cons b t ih =>
    rw [List.dropWhile_cons]
    by_cases hb : p b
    · rw [if_pos hb]
      rcases List.mem_cons.mp h with hab | hat
      · subst hab
        rw [hp] at hb
        cases hb
      · exact ih hat
    · rw [if_neg hb]
      exact h

theorem clags_all_eq_false {α : Type} {a : α} {l : List α} {q : α → Bool}
    (h : a ∈ l) (ha : q a = false) : l.all q = false := by
  rcases hq : l.all q with _ | _
  · rfl
  · rw [List.all_eq_true] at hq
    rw [hq a h] at ha
    cases ha

theorem clags_parse_digits_none {cs : List Char} {c : Char} (h : c ∈ cs)
    (hd : c.isDigit = false) : clags_parse_digits cs = none := by
  unfold clags_parse_digits
  rw [if_neg]
  intro hand
  rw [clags_all_eq_false h hd] at hand
  cases hand.2

/-- A token containing a `-` character anywhere - in particular with
leading whitespace before it - is rejected by the unsigned-integer
verifier core, for every width. -/
theorem clags_parse_uint_minus (bits : Nat) (s : String)
    (h : '-' ∈ s.data) : clags_parse_uint bits s = none := by
  have hm : '-' ∈ s.data.dropWhile clags_isspace :=
    clags_mem_dropWhile h (by decide)
  unfold clags_parse_uint
  rcases ht : s.data.dropWhile clags_isspace with _ | ⟨c, rest⟩
  · exfalso
    rw [ht] at hm
    cases hm
  · rw [ht] at hm
    dsimp only
    by_cases hc : c = '-'
    · rw [if_pos hc]
    · rw [if_neg hc]
      have hrest : '-' ∈ rest := by
        rcases List.mem_cons.mp hm with hce | hr
        · exact absurd hce.symm hc
        · exact hr
      have hbody : '-' ∈ (if c = '+' then rest else c :: rest) := by
        by_cases hp : c = '+'
        · rw [if_pos hp]
          exact hrest
        · rw [if_neg hp]
          exact List.mem_cons_of_mem _ hrest
      rw [clags_parse_digits_none hbody (by decide)]

/-- The unsigned integer kinds. -/
def clags_is_unsigned_kind : ClagsValueType → Bool
  | Clags_UInt8 => true
  | Clags_UInt32 => true
  | Clags_UInt64 => true
  | _ => false

/-- Every unsigned-kind verifier rejects a token containing `-`. -/
theorem clags_verify_unsigned_minus (fs : String → ClagsFileStat)
    (payload : ClagsPayload) (k : ClagsValueType) (s : String)
    (hk : clags_is_unsigned_kind k = true) (h : '-' ∈ s.data) :
    clags_verify fs k payload s = none := by
  cases k <;> first
    | exact absurd hk (by decide)
    | (simp only [clags_verify]
       rw [clags_parse_uint_minus _ _ h]
       rfl)

/-- One matcher step for `--name value`: with options in effect, an
unignored long token with no inline `=` that names a declared option
consumes the next token as its value - binding it on success and
recording `InvalidValue` on rejection. -/
theorem clags_match_long_opt_step (fs : String → ClagsFileStat) (fuel : Nat)
    (env : ClagsEnv) (idx : Nat) (st : ClagsMatchState) (tok v : String)
    (rest' : List String) (body nmcs : List Char) (k : Nat)
    (hig : clags_ignored (clags_env_get env idx).options.ignorePfx tok = false)
    (hcl : clags_classify (st.enabled && !st.oneShot)
        (clags_env_get env idx).options.allow_option_parsing_toggle tok.data
        = ClagsTokClass.long body)
    (hsp : clags_split_eq body = (nmcs, none))
    (hfind : (clags_env_get env idx).args.findIdx?
        (clags_is_option_long (String.mk nmcs)) = some k) :
    clags_match fs (fuel + 1) env idx st (tok :: v :: rest') =
      match clags_cfg_bind fs (clags_env_get env idx) k v with
      | some cfg' => clags_match fs fuel (clags_env_set env idx cfg') idx
          { st with oneShot := false } rest'
      | none => clags_fail env idx Clags_Error_InvalidValue := by
  simp only [clags_match, hig, hcl, hsp, hfind, Bool.false_eq_true, if_false]

/-- The `--size` UInt64 option schema of
`test_uint64_rejects_signed_whitespace` (`uint64_t size = 0`). -/
def clags_size_cfg : ClagsConfig :=
  { args := [{ type := Clags_Option, long_flag := some "size",
               value_type := Clags_UInt64, var := vNat 0 }] }

/-- C2: for every unsigned integer kind (UInt8, UInt32, UInt64), a token
containing a `-` sign - with or without leading whitespace before it -
is rejected with `InvalidValue` and the bound storage is left at its
pre-call default; in particular parsing the token `" -1"` for a UInt64
option yields `InvalidValue` and the bound variable stays 0. -/
theorem clags_c2_unsigned_minus_rejected :
    (∀ (bits : Nat) (s : String), '-' ∈ s.data →
      clags_parse_uint bits s = none) ∧
    (∀ (fs : String → ClagsFileStat) (payload : ClagsPayload)
        (k : ClagsValueType) (s : String),
      clags_is_unsigned_kind k = true → '-' ∈ s.data →
      clags_verify fs k payload s = none) ∧
    (∀ s : String, '-' ∈ s.data →
      (clags_parse clags_fs_none [clags_size_cfg] ["prog", "--size", s] 0).2
          = some 0 ∧
        (clags_env_get (clags_parse clags_fs_none [clags_size_cfg]
            ["prog", "--size", s] 0).1 0).error = Clags_Error_InvalidValue ∧
        (clags_env_get (clags_parse clags_fs_none [clags_size_cfg]
            ["prog", "--size", s] 0).1 0).args.map (fun a => a.var)
          = [vNat 0]) := by
  refine ⟨clags_parse_uint_minus, clags_verify_unsigned_minus, ?_⟩
  intro s hmem
  have hv : clags_verify clags_fs_none Clags_UInt64 ClagsPayload.pNone s
      = none :=
    clags_verify_unsigned_minus _ _ _ _ (by decide) hmem
  have harg : (clags_env_get [{ clags_size_cfg with name := some "prog" }]
        0).args.getD 0 default
      = { type := Clags_Option, long_flag := some "size",
          value_type := Clags_UInt64, var := vNat 0 } := rfl
  have hb : clags_cfg_bind clags_fs_none
      (clags_env_get [{ clags_size_cfg with name := some "prog" }] 0) 0 s
      = none := by
    simp only [clags_cfg_bind, harg, clags_bind_arg, hv, Option.map_none',
      Bool.false_eq_true, if_false]
  have h1 : clags_parse clags_fs_none [clags_size_cfg] ["prog", "--size", s] 0
      = clags_match clags_fs_none (15 + 1)
          [{ clags_size_cfg with name := some "prog" }] 0 clags_init_state
          ["--size", s] := rfl
  have hstep := clags_match_long_opt_step clags_fs_none 15
    [{ clags_size_cfg with name := some "prog" }] 0 clags_init_state
    "--size" s [] ['s', 'i', 'z', 'e'] ['s', 'i', 'z', 'e'] 0
    (by decide) (by decide) (by decide) (by decide)
  have hres : clags_parse clags_fs_none [clags_size_cfg]
      ["prog", "--size", s] 0
      = clags_fail [{ clags_size_cfg with name := some "prog" }] 0
          Clags_Error_InvalidValue := by
    rw [h1, hstep, hb]
  refine ⟨?_, ?_, ?_⟩ <;> rw [hres] <;> rfl

/-- Witness for C2: the end-to-end statement applied at the test's
concrete token `" -1"`. -/
theorem clags_c2_witness :
    (clags_parse clags_fs_none [clags_size_cfg] ["prog", "--size", " -1"]
        0).2 = some 0 ∧
      (clags_env_get (clags_parse clags_fs_none [clags_size_cfg]
          ["prog", "--size", " -1"] 0).1 0).error
        = Clags_Error_InvalidValue ∧
      (clags_env_get (clags_parse clags_fs_none [clags_size_cfg]
          ["prog", "--size", " -1"] 0).1 0).args.map (fun a => a.var)
        = [vNat 0] :=
  clags_c2_unsigned_minus_rejected.2.2 " -1" (by decide)

/-! ## C7: in-range integer literals bind exactly -/

theorem clags_digit_not_space {c : Char} (h : c.isDigit = true) :
    clags_isspace c = false := by
  unfold clags_isspace
  by_cases h1 : c = ' '
  · subst h1
    cases h
  · by_cases h2 : c = '\t'
    · subst h2
      cases h
    · by_cases h3 : c = '\n'
      · subst h3
        cases h
      · by_cases h4 : c = '\x0b'
        · subst h4
          cases h
        · by_cases h5 : c = '\x0c'
          · subst h5
            cases h
          · by_cases h6 : c = '\r'
            · subst h6
              cases h
            · simp [h1, h2, h3, h4, h5, h6]

theorem clags_digit_not_sign {c : Char} (h : c.isDigit = true) :
    c ≠ '-' ∧ c ≠ '+' := by
  constructor
  · intro he
    subst he
    cases h
  · intro he
    subst he
    cases h

theorem clags_parse_digits_eq {ds : List Char} (h1 : ds ≠ [])
    (h2 : ds.all Char.isDigit = true) :
    clags_parse_digits ds = some (clags_digitsVal ds) := by
  unfold clags_parse_digits
  rw [if_pos ⟨h1, h2⟩]

theorem clags_parse_uint_digits (bits : Nat) (ds : List Char) (h1 : ds ≠ [])
    (h2 : ds.all Char.isDigit = true)
    (h3 : clags_digitsVal ds < 2 ^ bits) :
    clags_parse_uint bits (String.mk ds) = some (clags_digitsVal ds) := by
  unfold clags_parse_uint
  rcases ds with _ | ⟨d, ds'⟩
  · exact absurd rfl h1
  · have hd : d.isDigit = true := by
      rw [List.all_cons] at h2
      exact (Bool.and_eq_true_iff.mp h2).1
    have hdata : (String.mk (d :: ds')).data = d :: ds' := rfl
    rw [hdata, List.dropWhile_cons, clags_digit_not_space hd]
    simp only [Bool.false_eq_true, if_false]
    rw [if_neg (clags_digit_not_sign hd).1,
      if_neg (clags_digit_not_sign hd).2, clags_parse_digits_eq h1 h2]
    dsimp only
    rw [if_pos h3]

/-- The mathematical value of a signed base-10 literal: optional sign
prefix `pre`, digit run `ds`. -/
def clags_signed_val (pre ds : List Char) : Int :=
  if pre = ['-'] then -(clags_digitsVal ds : Int) else (clags_digitsVal ds : Int)

theorem clags_parse_int_lit (bits : Nat) (pre ds : List Char)
    (hpre : pre = [] ∨ pre = ['+'] ∨ pre = ['-']) (h1 : ds ≠ [])
    (h2 : ds.all Char.isDigit = true)
    (h3 : -(2 ^ (bits - 1) : Int) ≤ clags_signed_val pre ds)
    (h4 : clags_signed_val pre ds < (2 ^ (bits - 1) : Int)) :
    clags_parse_int bits (String.mk (pre ++ ds))
      = some (clags_signed_val pre ds) := by
  rcases ds with _ | ⟨d, ds'⟩
  · exact absurd rfl h1
  have hd : d.isDigit = true := by
    rw [List.all_cons] at h2
    exact (Bool.and_eq_true_iff.mp h2).1
  rcases hpre with hp | hp | hp <;> subst hp
  · unfold clags_parse_int
    have hdata : (String.mk ([] ++ d :: ds')).data = d :: ds' := rfl
    rw [hdata, List.dropWhile_cons, clags_digit_not_space hd]
    simp only [Bool.false_eq_true, if_false]
    have hsign : (d = '-' || d = '+') = false := by
      have hs := clags_digit_not_sign hd
      simp [hs.1, hs.2]
    rw [hsign]
    simp only [Bool.false_eq_true, if_false]
    rw [clags_parse_digits_eq h1 h2]
    dsimp only
    rw [if_neg (clags_digit_not_sign hd).1]
    have hval : clags_signed_val [] (d :: ds')
        = (clags_digitsVal (d :: ds') : Int) := rfl
    rw [hval] at h3 h4
    rw [if_pos ⟨h3, h4⟩]
    rfl
  · have hstep : clags_parse_int bits (String.mk (['+'] ++ d :: ds'))
        = (match clags_parse_digits (d :: ds') with
           | some v =>
             if -(2 ^ (bits - 1) : Int) ≤ (v : Int)
                 ∧ (v : Int) < (2 ^ (bits - 1) : Int) then some (v : Int)
             else none
           | none => none) := rfl
    rw [hstep, clags_parse_digits_eq h1 h2]
    dsimp only
    have hval : clags_signed_val ['+'] (d :: ds')
        = (clags_digitsVal (d :: ds') : Int) := rfl
    rw [hval] at h3 h4
    rw [if_pos ⟨h3, h4⟩]
    rfl
  · have hstep : clags_parse_int bits (String.mk (['-'] ++ d :: ds'))
        = (match clags_parse_digits (d :: ds') with
           | some v =>
             if -(2 ^ (bits - 1) : Int) ≤ -(v : Int)
                 ∧ -(v : Int) < (2 ^ (bits - 1) : Int) then some (-(v : Int))
             else none
           | none => none) := rfl
    rw [hstep, clags_parse_digits_eq h1 h2]
    dsimp only
    have hval : clags_signed_val ['-'] (d :: ds')
        = -(clags_digitsVal (d :: ds') : Int) := rfl
    rw [hval] at h3 h4
    rw [if_pos ⟨h3, h4⟩]
    rfl

/-- C7: every base-10 integer literal whose value fits the target width
binds exactly that numeric value: the unsigned verifier core returns the
literal's value for every in-range digit run, the signed verifier core
does so for every optionally signed in-range literal, and parsing
`--num <literal>` against an Int32 option binds exactly the literal's
value with the schema's error `Ok` (in particular `--num 123` binds
123). -/
theorem clags_c7_integer_literal_binding :
    (∀ (bits : Nat) (ds : List Char), ds ≠ [] → ds.all Char.isDigit = true →
      clags_digitsVal ds < 2 ^ bits →
      clags_parse_uint bits (String.mk ds) = some (clags_digitsVal ds)) ∧
    (∀ (bits : Nat) (pre ds : List Char),
      pre = [] ∨ pre = ['+'] ∨ pre = ['-'] → ds ≠ [] →
      ds.all Char.isDigit = true →
      -(2 ^ (bits - 1) : Int) ≤ clags_signed_val pre ds →
      clags_signed_val pre ds < (2 ^ (bits - 1) : Int) →
      clags_parse_int bits (String.mk (pre ++ ds))
        = some (clags_signed_val pre ds)) ∧
    (∀ (pre ds : List Char), pre = [] ∨ pre = ['+'] ∨ pre = ['-'] →
      ds ≠ [] → ds.all Char.isDigit = true →
      -(2 ^ 31 : Int) ≤ clags_signed_val pre ds →
      clags_signed_val pre ds < (2 ^ 31 : Int) →
      (clags_parse clags_fs_none [clags_num_cfg]
          ["prog", "--num", String.mk (pre ++ ds)] 0).2 = none ∧
        (clags_env_get (clags_parse clags_fs_none [clags_num_cfg]
            ["prog", "--num", String.mk (pre ++ ds)] 0).1 0).error
          = Clags_Error_Ok ∧
        (clags_env_get (clags_parse clags_fs_none [clags_num_cfg]
            ["prog", "--num", String.mk (pre ++ ds)] 0).1 0).args.map
          (fun a => a.var) = [vInt (clags_signed_val pre ds)]) := by
  refine ⟨clags_parse_uint_digits, clags_parse_int_lit, ?_⟩
  intro pre ds hpre h1 h2 h3 h4
  have hv : clags_verify clags_fs_none Clags_Int32 ClagsPayload.pNone
      (String.mk (pre ++ ds))
      = some (ClagsScalar.sInt (clags_signed_val pre ds)) := by
    have := clags_parse_int_lit 32 pre ds hpre h1 h2 h3 h4
    simp only [clags_verify, this, Option.map_some']
  have harg : (clags_env_get [{ clags_num_cfg with name := some "prog" }]
        0).args.getD 0 default
      = { type := Clags_Option, long_flag := some "num",
          value_type := Clags_Int32, var := vInt 0 } := rfl
  have hb : clags_cfg_bind clags_fs_none
      (clags_env_get [{ clags_num_cfg with name := some "prog" }] 0) 0
      (String.mk (pre ++ ds))
      = some { args := [{ type := Clags_Option, long_flag := some "num",
                          value_type := Clags_Int32,
                          var := vInt (clags_signed_val pre ds) }],
               name := some "prog" } := by
    simp only [clags_cfg_bind, harg, clags_bind_arg, hv, Option.map_some',
      Bool.false_eq_true, if_false]
    rfl
  have h1' : clags_parse clags_fs_none [clags_num_cfg]
      ["prog", "--num", String.mk (pre ++ ds)] 0
      = clags_match clags_fs_none (15 + 1)
          [{ clags_num_cfg with name := some "prog" }] 0 clags_init_state
          ["--num", String.mk (pre ++ ds)] := rfl
  have hstep := clags_match_long_opt_step clags_fs_none 15
    [{ clags_num_cfg with name := some "prog" }] 0 clags_init_state
    "--num" (String.mk (pre ++ ds)) [] ['n', 'u', 'm'] ['n', 'u', 'm'] 0
    (by decide) (by decide) (by decide) (by decide)
  have hres : clags_parse clags_fs_none [clags_num_cfg]
      ["prog", "--num", String.mk (pre ++ ds)] 0
      = ([{ args := [{ type := Clags_Option, long_flag := some "num",
                       value_type := Clags_Int32,
                       var := vInt (clags_signed_val pre ds) }],
            name := some "prog" }], none) := by
    rw [h1', hstep, hb]
    rfl
  refine ⟨?_, ?_, ?_⟩ <;> rw [hres] <;> rfl

/-- Witness for C7: the end-to-end statement applied at the literal
`123` - `--num 123` binds exactly 123 with error `Ok`. -/
theorem clags_c7_witness :
    (clags_parse clags_fs_none [clags_num_cfg] ["prog", "--num", "123"]
        0).2 = none ∧
      (clags_env_get (clags_parse clags_fs_none [clags_num_cfg]
          ["prog", "--num", "123"] 0).1 0).error = Clags_Error_Ok ∧
      (clags_env_get (clags_parse clags_fs_none [clags_num_cfg]
          ["prog", "--num", "123"] 0).1 0).args.map (fun a => a.var)
        = [vInt 123] :=
  clags_c7_integer_literal_binding.2.2 [] ['1', '2', '3'] (Or.inl rfl)
    (by decide) (by decide) (by decide) (by decide)

/-! ## C5: subcommand resolution -/

/-- One matcher step for a Subcommand positional: an unignored
positional-input token that exactly matches a declared name makes the
bound storage receive the reference to that SubcommandSet entry
(`base + i`), sets the nested config's name to the matched token and its
parent back-reference to the active config, and hands all remaining
tokens to a fresh matcher pass over the nested config. -/
theorem clags_match_subcmd_step (fs : String → ClagsFileStat) (fuel : Nat)
    (env : ClagsEnv) (idx : Nat) (st : ClagsMatchState) (tok : String)
    (rest : List String) (p : ClagsArg) (s : ClagsSubcmds) (i : Nat)
    (hig : clags_ignored (clags_env_get env idx).options.ignorePfx tok = false)
    (hcl : clags_classify (st.enabled && !st.oneShot)
        (clags_env_get env idx).options.allow_option_parsing_toggle tok.data
        = ClagsTokClass.positional)
    (hp : (clags_positionals (clags_env_get env idx).args)[st.posIdx]? = some p)
    (hvt : p.value_type = Clags_Subcmd)
    (hpl : p.payload = ClagsPayload.pSubcmds s)
    (hfind : clags_subcmd_find s tok = some i) :
    clags_match fs (fuel + 1) env idx st (tok :: rest) =
      clags_match fs fuel
        (clags_env_set
          (clags_env_set env idx
            { clags_env_get env idx with
              args := clags_update_positional (clags_env_get env idx).args
                        st.posIdx (vSubcmdRef (s.base + i)) })
          (s.items.getD i default).config
          { clags_env_get
              (clags_env_set env idx
                { clags_env_get env idx with
                  args := clags_update_positional (clags_env_get env idx).args
                            st.posIdx (vSubcmdRef (s.base + i)) })
              (s.items.getD i default).config with
            name := some tok, parent := some idx })
        (s.items.getD i default).config clags_init_state rest := by
  have hbeq : (p.value_type == Clags_Subcmd) = true := by
    rw [hvt]
    rfl
  simp only [clags_match, hig, hcl, hp, hpl, hfind, hbeq, Bool.false_eq_true,
    if_false, if_true]

/-- The subcommand schema of `test_subcommand`: one Subcommand
positional whose set declares `init` with a nested empty config
(environment index 1); the set's items live at model address 100. -/
def clags_init_subcmds : ClagsSubcmds :=
  { base := 100, items := [{ name := "init", description := "", config := 1 }] }

/-- The root config of `test_subcommand`. -/
def clags_cmd_cfg : ClagsConfig :=
  { args := [{ type := Clags_Positional, arg_name := "command",
               value_type := Clags_Subcmd,
               payload := ClagsPayload.pSubcmds clags_init_subcmds,
               var := vNull }] }

/-- C5: a token exactly matching a declared subcommand name binds the
reference to that SubcommandSet entry and hands the remaining tokens to
the entry's nested schema (the general one-step resolution law), and
concretely `prog init` with a trivial nested config parses with no
failure, stores the reference to the `init` entry (`base + 0 = 100`),
and sets the nested config's name and parent back-reference. -/
theorem clags_c5_subcommand_resolution :
    (∀ (fs : String → ClagsFileStat) (fuel : Nat) (env : ClagsEnv)
        (idx : Nat) (st : ClagsMatchState) (tok : String)
        (rest : List String) (p : ClagsArg) (s : ClagsSubcmds) (i : Nat),
      clags_ignored (clags_env_get env idx).options.ignorePfx tok = false →
      clags_classify (st.enabled && !st.oneShot)
        (clags_env_get env idx).options.allow_option_parsing_toggle tok.data
        = ClagsTokClass.positional →
      (clags_positionals (clags_env_get env idx).args)[st.posIdx]? = some p →
      p.value_type = Clags_Subcmd →
      p.payload = ClagsPayload.pSubcmds s →
      clags_subcmd_find s tok = some i →
      clags_match fs (fuel + 1) env idx st (tok :: rest) =
        clags_match fs fuel
          (clags_env_set
            (clags_env_set env idx
              { clags_env_get env idx with
                args := clags_update_positional (clags_env_get env idx).args
                          st.posIdx (vSubcmdRef (s.base + i)) })
            (s.items.getD i default).config
            { clags_env_get
                (clags_env_set env idx
                  { clags_env_get env idx with
                    args := clags_update_positional (clags_env_get env idx).args
                              st.posIdx (vSubcmdRef (s.base + i)) })
                (s.items.getD i default).config with
              name := some tok, parent := some idx })
          (s.items.getD i default).config clags_init_state rest) ∧
    ((clags_parse clags_fs_none [clags_cmd_cfg, clags_nil_config]
        ["prog", "init"] 0).2 = none ∧
      (clags_env_get (clags_parse clags_fs_none
          [clags_cmd_cfg, clags_nil_config] ["prog", "init"] 0).1 0).args.map
        (fun a => a.var) = [vSubcmdRef 100] ∧
      (clags_env_get (clags_parse clags_fs_none
          [clags_cmd_cfg, clags_nil_config] ["prog", "init"] 0).1 1).name
        = some "init" ∧
      (clags_env_get (clags_parse clags_fs_none
          [clags_cmd_cfg, clags_nil_config] ["prog", "init"] 0).1 1).parent
        = some 0 ∧
      (clags_env_get (clags_parse clags_fs_none
          [clags_cmd_cfg, clags_nil_config] ["prog", "init"] 0).1 0).error
        = Clags_Error_Ok) := by
  constructor
  · intro fs fuel env idx st tok rest p s i hig hcl hp hvt hpl hfind
    exact clags_match_subcmd_step fs fuel env idx st tok rest p s i hig hcl
      hp hvt hpl hfind
  · refine ⟨by decide, by decide, by decide, by decide, by decide⟩

/-- Witness for C5: the one-step law applied at the concrete
`test_subcommand` scenario. -/
theorem clags_c5_witness :
    clags_match clags_fs_none (3 + 1)
      [{ clags_cmd_cfg with name := some "prog" }, clags_nil_config] 0
      clags_init_state ["init"] =
      clags_match clags_fs_none 3
        (clags_env_set
          (clags_env_set
            [{ clags_cmd_cfg with name := some "prog" }, clags_nil_config] 0
            { clags_env_get
                [{ clags_cmd_cfg with name := some "prog" }, clags_nil_config]
                0 with
              args := clags_update_positional
                (clags_env_get
                  [{ clags_cmd_cfg with name := some "prog" },
                   clags_nil_config] 0).args 0
                (vSubcmdRef (clags_init_subcmds.base + 0)) })
          (clags_init_subcmds.items.getD 0 default).config
          { clags_env_get
              (clags_env_set
                [{ clags_cmd_cfg with name := some "prog" }, clags_nil_config]
                0
                { clags_env_get
                    [{ clags_cmd_cfg with name := some "prog" },
                     clags_nil_config] 0 with
                  args := clags_update_positional
                    (clags_env_get
                      [{ clags_cmd_cfg with name := some "prog" },
                       clags_nil_config] 0).args 0
                    (vSubcmdRef (clags_init_subcmds.base + 0)) })
              (clags_init_subcmds.items.getD 0 default).config with
            name := some "init", parent := some 0 })
        (clags_init_subcmds.items.getD 0 default).config clags_init_state
        [] :=
  clags_c5_subcommand_resolution.1 clags_fs_none 3
    [{ clags_cmd_cfg with name := some "prog" }, clags_nil_config] 0
    clags_init_state "init" [] _ clags_init_subcmds 0 (by decide) (by decide)
    rfl rfl rfl (by decide)

/-! ## C4: a positional list consumes all trailing tokens -/

/-- The single-list-positional schema of `test_positional_list`
(`clags_list_t files = clags_list()`), with the program name already
assigned and the list holding `acc` at capacity `cap`. -/
def clags_files_cfg_at (acc : List ClagsScalar) (cap : Nat) : ClagsConfig :=
  { args := [{ type := Clags_Positional, arg_name := "files",
               value_type := Clags_String, var := ClagsValue.vList acc 8 cap,
               is_list := true }], name := some "prog" }

/-- The same schema as initially constructed (empty list, no name). -/
def clags_files_cfg : ClagsConfig :=
  { args := [{ type := Clags_Positional, arg_name := "files",
               value_type := Clags_String, var := ClagsValue.vList [] 8 0,
               is_list := true }] }

theorem clags_files_scan (ts : List String) :
    ∀ (fuel : Nat) (acc : List ClagsScalar) (cap : Nat) (b : Bool),
    ts.length < fuel →
    (∀ t ∈ ts, clags_classify true false t.data = ClagsTokClass.positional) →
    (b = true ∨ ts ≠ []) →
    ∃ cap', clags_match clags_fs_none fuel [clags_files_cfg_at acc cap] 0
        { posIdx := 0, enabled := true, oneShot := false, curHasItems := b } ts
      = ([clags_files_cfg_at (acc ++ ts.map ClagsScalar.sStr) cap'], none) := by
  induction ts with
  | nil =>
    intro fuel acc cap b hf hcl hb
    have hbt : b = true := by
      rcases hb with h | h
      · exact h
      · exact absurd rfl h
    subst hbt
    obtain ⟨f, rfl⟩ : ∃ f, fuel = f + 1 := ⟨fuel - 1, by omega⟩
    refine ⟨cap, ?_⟩
    rw [List.map_nil, List.append_nil]
    rfl
  | cons t ts' ih =>
    intro fuel acc cap b hf hcl _
    obtain ⟨f, rfl⟩ : ∃ f, fuel = f + 1 := ⟨fuel - 1, by omega⟩
    have hclt : clags_classify true false t.data = ClagsTokClass.positional :=
      hcl t (List.mem_cons_self t ts')
    have hstep : clags_match clags_fs_none (f + 1) [clags_files_cfg_at acc cap]
        0 { posIdx := 0, enabled := true, oneShot := false, curHasItems := b }
        (t :: ts')
        = clags_match clags_fs_none f
            [clags_files_cfg_at (acc ++ [ClagsScalar.sStr t])
              (clags_grow acc.length cap)] 0
            { posIdx := 0, enabled := true, oneShot := false,
              curHasItems := true } ts' := by
      have hig : clags_ignored
          (clags_env_get [clags_files_cfg_at acc cap] 0).options.ignorePfx t
          = false := rfl
      have htog : (clags_env_get [clags_files_cfg_at acc cap]
          0).options.allow_option_parsing_toggle = false := rfl
      have hterm : clags_is_terminator
          (clags_env_get [clags_files_cfg_at acc cap]
            0).options.list_terminator t = false := rfl
      have hreq : clags_required_after
          (clags_env_get [clags_files_cfg_at acc cap] 0).args 0 = 0 := rfl
      have hbindp : clags_cfg_bind_pos clags_fs_none
          (clags_env_get [clags_files_cfg_at acc cap] 0) 0 t
          = some (clags_files_cfg_at (acc ++ [ClagsScalar.sStr t])
              (clags_grow acc.length cap)) := rfl
      simp only [clags_match, hig, htog, hclt, hterm, hreq, hbindp,
        Bool.false_eq_true, if_false, Bool.not_false, Bool.and_true,
        Bool.and_self]
      rw [if_neg (Nat.succ_ne_zero ts'.length)]
      rfl
    rw [hstep]
    obtain ⟨cap', hrec⟩ := ih f (acc ++ [ClagsScalar.sStr t])
      (clags_grow acc.length cap) true (by simpa using hf)
      (fun u hu => hcl u (List.mem_cons_of_mem t hu)) (Or.inl rfl)
    refine ⟨cap', ?_⟩
    rw [hrec]
    simp [List.append_assoc]

/-- Items of a bound list slot. -/
def clags_list_items : ClagsValue → List ClagsScalar
  | ClagsValue.vList items _ _ => items
  | _ => []

/-- C4: with a single list-valued positional, no terminator configured
or seen and no further required positionals, parsing consumes every
remaining token into the list in input order; for
`["a.txt","b.txt","c.txt"]` the list ends up with exactly 3 elements,
first `a.txt`, last `c.txt`, and the parse succeeds. -/
theorem clags_c4_positional_list_consumes_all :
    (∀ (ts : List String), ts ≠ [] →
      (∀ t ∈ ts, clags_classify true false t.data
        = ClagsTokClass.positional) →
      (clags_parse clags_fs_none [clags_files_cfg] ("prog" :: ts) 0).2 = none ∧
      ∃ cap', (clags_env_get (clags_parse clags_fs_none [clags_files_cfg]
          ("prog" :: ts) 0).1 0).args.map (fun a => a.var)
        = [ClagsValue.vList (ts.map ClagsScalar.sStr) 8 cap']) ∧
    ((clags_parse clags_fs_none [clags_files_cfg]
        ["prog", "a.txt", "b.txt", "c.txt"] 0).2 = none ∧
      (clags_list_items (((clags_env_get (clags_parse clags_fs_none
          [clags_files_cfg] ["prog", "a.txt", "b.txt", "c.txt"] 0).1
          0).args.getD 0 default).var)).length = 3 ∧
      (clags_list_items (((clags_env_get (clags_parse clags_fs_none
          [clags_files_cfg] ["prog", "a.txt", "b.txt", "c.txt"] 0).1
          0).args.getD 0 default).var)).head?
        = some (ClagsScalar.sStr "a.txt") ∧
      (clags_list_items (((clags_env_get (clags_parse clags_fs_none
          [clags_files_cfg] ["prog", "a.txt", "b.txt", "c.txt"] 0).1
          0).args.getD 0 default).var)).getLast?
        = some (ClagsScalar.sStr "c.txt") ∧
      (clags_env_get (clags_parse clags_fs_none [clags_files_cfg]
          ["prog", "a.txt", "b.txt", "c.txt"] 0).1 0).error
        = Clags_Error_Ok) := by
  constructor
  · intro ts hne hcl
    obtain ⟨cap', hscan⟩ := clags_files_scan ts
      (clags_fuel [clags_files_cfg] ("prog" :: ts)) [] 0 false
      (by simp [clags_fuel, clags_files_cfg]; omega) hcl (Or.inr hne)
    have h1 : clags_parse clags_fs_none [clags_files_cfg] ("prog" :: ts) 0
        = clags_match clags_fs_none
            (clags_fuel [clags_files_cfg] ("prog" :: ts))
            [clags_files_cfg_at [] 0] 0
            { posIdx := 0, enabled := true, oneShot := false,
              curHasItems := false } ts := rfl
    rw [h1, hscan]
    exact ⟨rfl, cap', rfl⟩
  · refine ⟨by decide, by decide, by decide, by decide, by decide⟩

/-- Witness for C4: the general consume-all statement applied at the
test's concrete token list. -/
theorem clags_c4_witness :
    (clags_parse clags_fs_none [clags_files_cfg]
        ("prog" :: ["a.txt", "b.txt", "c.txt"]) 0).2 = none ∧
    ∃ cap', (clags_env_get (clags_parse clags_fs_none [clags_files_cfg]
        ("prog" :: ["a.txt", "b.txt", "c.txt"]) 0).1 0).args.map
        (fun a => a.var)
      = [ClagsValue.vList
          (["a.txt", "b.txt", "c.txt"].map ClagsScalar.sStr) 8 cap'] :=
  clags_c4_positional_list_consumes_all.1 ["a.txt", "b.txt", "c.txt"]
    (by decide) (by decide)

/-! ## C9: the default value kind is String -/

/-- The plain positional schema of `test_positional`, built with the
`clags_positional` constructor and no explicit value type. -/
def clags_file_cfg : ClagsConfig :=
  { args := [clags_positional vNull "file" "the input file"
      { type := Clags_Positional }] }

/-- C9: an ArgumentSpec constructed without an explicit value type
defaults to `Clags_String` - the first enum member, value 0 - so its
token is accepted by the String verifier and bound as the raw string:
`Clags_String` is the unique kind with enum value 0, the positional and
option constructors leave `value_type` at `Clags_String` (and the other
designated-initializer defaults at false), the String verifier accepts
any token as itself, and parsing a positional declared without a value
type binds the token string and succeeds. -/
theorem clags_c9_default_value_type :
    clags_value_type_code Clags_String = 0 ∧
    (∀ k : ClagsValueType, clags_value_type_code k = 0 → k = Clags_String) ∧
    (∀ (v : ClagsValue) (nm desc : String),
      (clags_positional v nm desc { type := Clags_Positional }).value_type
          = Clags_String ∧
        (clags_positional v nm desc { type := Clags_Positional }).is_list
          = false ∧
        (clags_positional v nm desc { type := Clags_Positional }).optional
          = false) ∧
    (∀ (sf : Option Char) (lf : Option String) (v : ClagsValue)
        (nm desc : String),
      (clags_option sf lf v nm desc { type := Clags_Option }).value_type
        = Clags_String) ∧
    (∀ (fs : String → ClagsFileStat) (payload : ClagsPayload) (tok : String),
      clags_verify fs Clags_String payload tok
        = some (ClagsScalar.sStr tok)) ∧
    ((clags_parse clags_fs_none [clags_file_cfg] ["prog", "input.txt"] 0).2
        = none ∧
      (clags_env_get (clags_parse clags_fs_none [clags_file_cfg]
          ["prog", "input.txt"] 0).1 0).args.map (fun a => a.var)
        = [vStr "input.txt"] ∧
      (clags_env_get (clags_parse clags_fs_none [clags_file_cfg]
          ["prog", "input.txt"] 0).1 0).error = Clags_Error_Ok) := by
  refine ⟨rfl, ?_, fun v nm desc => ⟨rfl, rfl, rfl⟩,
    fun sf lf v nm desc => rfl, fun fs payload tok => rfl,
    by decide, by decide, by decide⟩
  intro k h
  cases k <;> first
    | rfl
    | exact absurd h (by decide)

/-- Witness for C9: the uniqueness statement applied at `Clags_String`
(its code is 0) together with the String verifier evaluated on a
concrete token. -/
theorem clags_c9_witness :
    Clags_String = Clags_String ∧
    clags_verify clags_fs_none Clags_String ClagsPayload.pNone "input.txt"
      = some (ClagsScalar.sStr "input.txt") :=
  ⟨clags_c9_default_value_type.2.1 Clags_String rfl,
   clags_c9_default_value_type.2.2.2.2.1 clags_fs_none ClagsPayload.pNone
     "input.txt"⟩
